import Mathlib

/-!
Shallow embedding of the Blueprint exporter
(Plugins/BlueprintExporter/Source/BlueprintExporter/Private/BlueprintExporter.cpp).

The C++ code walks a read-only object graph (UBlueprint, UEdGraph, UEdGraphNode,
UEdGraphPin) and produces a JSON document.  Here the object graph is embedded as
plain Lean structures; engine pointers that may be null are embedded as Option;
JSON documents are embedded as an ordered association-list value type.  Loops
that conditionally append to a TArray are embedded as left folds with named step
functions that mirror the loop bodies.
-/

namespace BlueprintExporter

/-- JSON values as produced by the exporter: insertion-ordered field lists. -/
inductive JValue where
  | str (s : String)
  | num (n : Int)
  | jbool (b : Bool)
  | obj (fields : List (String × JValue))
  | arr (elems : List JValue)
deriving Repr

/-- Field lookup in a serialized object (none when the key is absent or the
value is not an object). -/
def getField (j : JValue) (key : String) : Option JValue :=
  match j with
  | .obj fields => fields.lookup key
  | _ => none

/-- Pin direction (EEdGraphPinDirection): EGPD_Input or EGPD_Output. -/
inductive Direction where
  | input
  | output
deriving DecidableEq, Repr

/-- FEdGraphPinType: a base category name, an optionally valid
PinSubCategoryObject (embedded by its GetName string), and the IsArray flag. -/
structure TypeDescriptor where
  pinCategory : String
  pinSubCategoryObject : Option String
  isArray : Bool
deriving DecidableEq, Repr

/-- A reference to a graph node as held by a wire (UEdGraphPin::LinkedTo entry,
via GetOwningNode).  `refId` stands for the engine object identity (pointer),
`name` for GetName(); two distinct nodes may in principle share a name. -/
structure NodeRef where
  refId : Nat
  name : String
deriving DecidableEq, Repr

/-- UEdGraphPin.  `defaultObject` is the GetPathName of the DefaultObject when
it is non-null.  `linkedTo` entries are none when the linked pin or its owning
node is null (both are skipped identically by the code). -/
structure Pin where
  name : String
  displayName : String
  direction : Direction
  pinType : TypeDescriptor
  defaultValue : String
  defaultObject : Option String
  linkedTo : List (Option NodeRef)
deriving DecidableEq, Repr

/-- The concrete kind of a UEdGraphNode, as discriminated by the Cast chain in
NodeTypeToString.  The five recognized cast targets are pairwise disjoint
classes; `callFunction` carries FunctionReference.GetMemberParentClass()'s
GetPathName when that class is non-null; `other` carries
GetClass()->GetName(). -/
inductive NodeKindCase where
  | event
  | functionEntry
  | callFunction (memberParentPath : Option String)
  | variableGet
  | variableSet
  | other (className : String)
deriving DecidableEq, Repr

/-- UEdGraphNode.  `isK2` records whether the node casts to UK2Node (used by
GetNodeCategory); `menuCategory` is GetMenuCategory().ToString(). -/
structure Node where
  name : String
  cls : NodeKindCase
  title : String
  isK2 : Bool
  menuCategory : String
  posX : Int
  posY : Int
  pins : List (Option Pin)
deriving DecidableEq, Repr

/-- UEdGraph: a name and its Nodes array (entries may be null). -/
structure Graph where
  name : String
  nodes : List (Option Node)
deriving DecidableEq, Repr

/-- FBPVariableDescription fields used by SerializeVariables. -/
structure VariableDescription where
  varName : String
  varType : TypeDescriptor
  category : String
  propertyFlags : Nat
  defaultValue : String
deriving DecidableEq, Repr

/-- USCS_Node: variable name and the ComponentTemplate's class name when the
template is non-null. -/
structure SCSNode where
  variableName : String
  componentTemplateName : Option String
deriving DecidableEq, Repr

/-- UBlueprint fields used by the exporter. -/
structure Blueprint where
  name : String
  pathName : String
  parentClassName : Option String
  generatedClassName : Option String
  ubergraphPages : List (Option Graph)
  functionGraphs : List (Option Graph)
  newVariables : List VariableDescription
  simpleConstructionScript : Option (List (Option SCSNode))
deriving DecidableEq, Repr

/-- UEdGraphSchema_K2::PC_Exec. -/
def PC_Exec : String := "exec"

/-- UEdGraphSchema_K2::PC_Object. -/
def PC_Object : String := "object"

/-- CPF_ExposeOnSpawn flag bit. -/
def CPF_ExposeOnSpawn : Nat := 0x0000001000000000

/-- PinTypeToString: base category, then append <SubObjectName> when the
sub-category object is valid, then wrap as Array<...> when IsArray(). -/
def PinTypeToString (pinType : TypeDescriptor) : String :=
  let typeString := pinType.pinCategory
  let typeString :=
    match pinType.pinSubCategoryObject with
    | some objName => typeString ++ "<" ++ objName ++ ">"
    | none => typeString
  let typeString :=
    if pinType.isArray then "Array<" ++ typeString ++ ">" else typeString
  typeString

/-- Cast<UK2Node_Event> succeeds. -/
def isEventNode : NodeKindCase → Bool
  | .event => true
  | _ => false

/-- Cast<UK2Node_FunctionEntry> succeeds. -/
def isFunctionEntryNode : NodeKindCase → Bool
  | .functionEntry => true
  | _ => false

/-- Cast<UK2Node_CallFunction> succeeds. -/
def isCallFunctionNode : NodeKindCase → Bool
  | .callFunction _ => true
  | _ => false

/-- Cast<UK2Node_VariableGet> succeeds. -/
def isVariableGetNode : NodeKindCase → Bool
  | .variableGet => true
  | _ => false

/-- Cast<UK2Node_VariableSet> succeeds. -/
def isVariableSetNode : NodeKindCase → Bool
  | .variableSet => true
  | _ => false

/-- GetClass()->GetName() for each embedded node kind (only the `other` arm is
reachable from NodeTypeToString's fallback). -/
def nodeClassName : NodeKindCase → String
  | .event => "K2Node_Event"
  | .functionEntry => "K2Node_FunctionEntry"
  | .callFunction _ => "K2Node_CallFunction"
  | .variableGet => "K2Node_VariableGet"
  | .variableSet => "K2Node_VariableSet"
  | .other className => className

/-- NodeTypeToString: null node gives "Unknown"; otherwise the Cast chain is
tried in source order, first success wins, and the fallback returns the node's
concrete class name. -/
def NodeTypeToString (node : Option Node) : String :=
  match node with
  | none => "Unknown"
  | some n =>
    if isEventNode n.cls then "Event"
    else if isFunctionEntryNode n.cls then "FunctionEntry"
    else if isCallFunctionNode n.cls then "CallFunction"
    else if isVariableGetNode n.cls then "VariableGet"
    else if isVariableSetNode n.cls then "VariableSet"
    else nodeClassName n.cls

/-- GetNodeCategory: the menu category when the node casts to UK2Node, else the
empty string. -/
def GetNodeCategory (node : Node) : String :=
  if node.isK2 then node.menuCategory else ""

/-- TArray::AddUnique. -/
def addUnique {α : Type} [DecidableEq α] (acc : List α) (x : α) : List α :=
  if x ∈ acc then acc else acc ++ [x]

/-- Inner loop of GetConnectedNodes over one pin's LinkedTo array. -/
def connectedStep (acc : List NodeRef) (linked : Option NodeRef) : List NodeRef :=
  match linked with
  | some ref => addUnique acc ref
  | none => acc

/-- Outer loop body of GetConnectedNodes over one pin. -/
def connectedPinStep (acc : List NodeRef) (pin : Option Pin) : List NodeRef :=
  match pin with
  | some p =>
    if p.direction = Direction.output then p.linkedTo.foldl connectedStep acc
    else acc
  | none => acc

/-- GetConnectedNodes: walk the node's output pins, AddUnique every linked
pin's owning node. -/
def GetConnectedNodes (node : Node) : List NodeRef :=
  node.pins.foldl connectedPinStep []

/-- SerializePin: fixed fields plus default_value only when the default literal
is non-empty. -/
def SerializePin (pin : Pin) : JValue :=
  JValue.obj
    ([("name", JValue.str pin.name),
      ("display_name", JValue.str pin.displayName),
      ("direction", JValue.str (if pin.direction = Direction.input then "input" else "output")),
      ("type", JValue.str (PinTypeToString pin.pinType))]
     ++ (if pin.defaultValue.isEmpty then []
         else [("default_value", JValue.str pin.defaultValue)]))

/-- Loop body collecting pin records, skipping null pins. -/
def appendPinRecord (acc : List JValue) (pin : Option Pin) : List JValue :=
  match pin with
  | some p => acc ++ [SerializePin p]
  | none => acc

/-- The pins array of one node record. -/
def PinsArray (node : Node) : List JValue :=
  node.pins.foldl appendPinRecord []

/-- SerializeNode: id, type, title, category, position, pins, connections. -/
def SerializeNode (node : Node) : JValue :=
  JValue.obj
    [("id", JValue.str node.name),
     ("type", JValue.str (NodeTypeToString (some node))),
     ("title", JValue.str node.title),
     ("category", JValue.str (GetNodeCategory node)),
     ("position", JValue.obj [("x", JValue.num node.posX), ("y", JValue.num node.posY)]),
     ("pins", JValue.arr (PinsArray node)),
     ("connections", JValue.arr ((GetConnectedNodes node).map (fun r => JValue.str r.name)))]

/-- Loop body collecting node records, skipping null nodes. -/
def appendNodeRecord (acc : List JValue) (node : Option Node) : List JValue :=
  match node with
  | some n => acc ++ [SerializeNode n]
  | none => acc

/-- The nodes array of one graph record. -/
def NodesArray (graph : Graph) : List JValue :=
  graph.nodes.foldl appendNodeRecord []

/-- SerializeGraph. -/
def SerializeGraph (graph : Graph) : JValue :=
  JValue.obj
    [("name", JValue.str graph.name),
     ("nodes", JValue.arr (NodesArray graph))]

/-- Loop body collecting graph records, skipping null graphs. -/
def appendGraphRecord (acc : List JValue) (graph : Option Graph) : List JValue :=
  match graph with
  | some g => acc ++ [SerializeGraph g]
  | none => acc

/-- The graphs array of the blueprint record: ubergraph pages first, then
function graphs, nulls skipped. -/
def GraphsArray (bp : Blueprint) : List JValue :=
  bp.functionGraphs.foldl appendGraphRecord
    (bp.ubergraphPages.foldl appendGraphRecord [])

/-- One variable record of SerializeVariables. -/
def SerializeVariable (v : VariableDescription) : JValue :=
  JValue.obj
    ([("name", JValue.str v.varName),
      ("type", JValue.str (PinTypeToString v.varType)),
      ("category", JValue.str v.category),
      ("is_exposed", JValue.jbool ((v.propertyFlags &&& CPF_ExposeOnSpawn) != 0))]
     ++ (if v.defaultValue.isEmpty then []
         else [("default_value", JValue.str v.defaultValue)]))

/-- Loop body of SerializeVariables. -/
def appendVariableRecord (acc : List JValue) (v : VariableDescription) : List JValue :=
  acc ++ [SerializeVariable v]

/-- SerializeVariables. -/
def SerializeVariables (bp : Blueprint) : List JValue :=
  bp.newVariables.foldl appendVariableRecord []

/-- One parameter record of SerializeFunctions. -/
def ParamRecord (pin : Pin) : JValue :=
  JValue.obj
    [("name", JValue.str pin.name),
     ("type", JValue.str (PinTypeToString pin.pinType))]

/-- Inner loop of SerializeFunctions over an entry node's pins: keep non-null,
output-direction, non-exec pins. -/
def appendParamRecord (acc : List JValue) (pin : Option Pin) : List JValue :=
  match pin with
  | some p =>
    if p.direction = Direction.output ∧ p.pinType.pinCategory ≠ PC_Exec then
      acc ++ [ParamRecord p]
    else acc
  | none => acc

/-- Outer loop of the parameter search: every node that casts to
UK2Node_FunctionEntry contributes its qualifying pins. -/
def paramNodeStep (acc : List JValue) (node : Option Node) : List JValue :=
  match node with
  | some n =>
    if isFunctionEntryNode n.cls then n.pins.foldl appendParamRecord acc
    else acc
  | none => acc

/-- The parameters array of one function record. -/
def FunctionEntryParams (graph : Graph) : List JValue :=
  graph.nodes.foldl paramNodeStep []

/-- One function record of SerializeFunctions. -/
def SerializeFunction (graph : Graph) : JValue :=
  JValue.obj
    [("name", JValue.str graph.name),
     ("parameters", JValue.arr (FunctionEntryParams graph)),
     ("graph", SerializeGraph graph)]

/-- Loop body of SerializeFunctions, skipping null function graphs. -/
def appendFunctionRecord (acc : List JValue) (graph : Option Graph) : List JValue :=
  match graph with
  | some g => acc ++ [SerializeFunction g]
  | none => acc

/-- SerializeFunctions. -/
def SerializeFunctions (bp : Blueprint) : List JValue :=
  bp.functionGraphs.foldl appendFunctionRecord []

/-- Loop body of SerializeComponents: nodes with a non-null ComponentTemplate
contribute a name/class record. -/
def appendComponentRecord (acc : List JValue) (node : Option SCSNode) : List JValue :=
  match node with
  | some n =>
    match n.componentTemplateName with
    | some templateName =>
      acc ++ [JValue.obj [("name", JValue.str n.variableName),
                          ("class", JValue.str templateName)]]
    | none => acc
  | none => acc

/-- SerializeComponents: empty when the SimpleConstructionScript is null. -/
def SerializeComponents (bp : Blueprint) : List JValue :=
  match bp.simpleConstructionScript with
  | none => []
  | some nodes => nodes.foldl appendComponentRecord []

/-- Dependency-extraction state: (UniqueDependencies, DependenciesArray).
UniqueDependencies is the TSet embedded as the list of its insertions. -/
def addDependency (st : List String × List String) (path : String) : List String × List String :=
  if path.isEmpty = false ∧ path ∉ st.1 then (st.1 ++ [path], st.2 ++ [path])
  else st

/-- Pin loop of ExtractDependencies: object-category pins with a non-null
default object contribute that object's path. -/
def depPinStep (st : List String × List String) (pin : Option Pin) : List String × List String :=
  match pin with
  | some p =>
    if p.pinType.pinCategory = PC_Object then
      match p.defaultObject with
      | some objectPath => addDependency st objectPath
      | none => st
    else st
  | none => st

/-- Per-node body of ExtractDependencies: the call target's owning class path
first (when the node is a UK2Node_CallFunction with a non-null parent class),
then the node's pins. -/
def depNodeStep (st : List String × List String) (node : Option Node) : List String × List String :=
  match node with
  | some n =>
    let st :=
      match n.cls with
      | .callFunction (some classPath) => addDependency st classPath
      | _ => st
    n.pins.foldl depPinStep st
  | none => st

/-- Per-graph body of ExtractDependencies, skipping null graphs. -/
def depGraphStep (st : List String × List String) (graph : Option Graph) : List String × List String :=
  match graph with
  | some g => g.nodes.foldl depNodeStep st
  | none => st

/-- ExtractDependencies: walk the ubergraph pages and return the accumulated
DependenciesArray. -/
def ExtractDependencies (bp : Blueprint) : List String :=
  (bp.ubergraphPages.foldl depGraphStep ([], [])).2

/-- SerializeBlueprint: the top-level document. -/
def SerializeBlueprint (bp : Blueprint) : JValue :=
  JValue.obj
    ([("name", JValue.str bp.name),
      ("path", JValue.str bp.pathName),
      ("class_type", JValue.str "Blueprint")]
     ++ (match bp.parentClassName with
         | some p => [("parent_class", JValue.str p)]
         | none => [])
     ++ (match bp.generatedClassName with
         | some g => [("generated_class", JValue.str g)]
         | none => [])
     ++ [("graphs", JValue.arr (GraphsArray bp)),
         ("variables", JValue.arr (SerializeVariables bp)),
         ("functions", JValue.arr (SerializeFunctions bp)),
         ("components", JValue.arr (SerializeComponents bp)),
         ("dependencies", JValue.arr ((ExtractDependencies bp).map JValue.str))])

mutual

/-- The JSON writer (FJsonSerializer::Serialize to string), compact form. -/
def jsonWrite : JValue → String
  | .str s => "\"" ++ s ++ "\""
  | .num n => toString n
  | .jbool b => if b then "true" else "false"
  | .obj fields => "\x7b" ++ jsonWriteFields fields ++ "\x7d"
  | .arr elems => "[" ++ jsonWriteElems elems ++ "]"

/-- Comma-separated key/value pairs. -/
def jsonWriteFields : List (String × JValue) → String
  | [] => ""
  | [(k, v)] => "\"" ++ k ++ "\":" ++ jsonWrite v
  | (k, v) :: rest => "\"" ++ k ++ "\":" ++ jsonWrite v ++ "," ++ jsonWriteFields rest

/-- Comma-separated array elements. -/
def jsonWriteElems : List JValue → String
  | [] => ""
  | [v] => jsonWrite v
  | v :: rest => jsonWrite v ++ "," ++ jsonWriteElems rest

end

/-- ExtractBlueprintData: a null blueprint yields the literal empty-object
placeholder; otherwise the serialized document rendered to a string. -/
def ExtractBlueprintData (blueprint : Option Blueprint) : String :=
  match blueprint with
  | none => "\x7b\x7d"
  | some bp => jsonWrite (SerializeBlueprint bp)

/-- ExportBlueprintToFile: null blueprint fails with false; otherwise the
result of the injected persistence call (FFileHelper::SaveStringToFile). -/
def ExportBlueprintToFile (saveStringToFile : String → String → Bool)
    (blueprint : Option Blueprint) (filePath : String) : Bool :=
  match blueprint with
  | none => false
  | some bp => saveStringToFile (ExtractBlueprintData (some bp)) filePath

/-- UBlueprintChangeMonitor together with the asset registry's delegate lists
restricted to this monitor instance: `callback` is the single stored delegate
slot; the three counters are the number of this monitor's bindings on the
registry's OnAssetAdded / OnAssetRemoved / OnAssetUpdated multicast delegates
(AddUObject appends one binding, RemoveAll(this) removes all of them). -/
structure MonitorState where
  callback : Option Nat
  addedSubs : Nat
  removedSubs : Nat
  updatedSubs : Nat
deriving DecidableEq, Repr

/-- The Idle monitor: no stored callback, no registry bindings. -/
def idleMonitor : MonitorState :=
  { callback := none, addedSubs := 0, removedSubs := 0, updatedSubs := 0 }

/-- StartMonitoring: store the callback, then AddUObject one binding on each of
the three registry delegates. -/
def StartMonitoring (onChanged : Nat) (st : MonitorState) : MonitorState :=
  { callback := some onChanged,
    addedSubs := st.addedSubs + 1,
    removedSubs := st.removedSubs + 1,
    updatedSubs := st.updatedSubs + 1 }

/-- StopMonitoring: RemoveAll(this) on each of the three registry delegates
(the stored callback slot is not cleared). -/
def StopMonitoring (st : MonitorState) : MonitorState :=
  { st with addedSubs := 0, removedSubs := 0, updatedSubs := 0 }

/-- One handler run of OnAssetAdded / OnAssetModified: when the event's asset
class path is the Blueprint class and the asset casts to UBlueprint, the stored
callback is invoked on it (ExecuteIfBound). -/
def handlerInvocations (st : MonitorState) (classPathMatches : Bool)
    (asset : Option Nat) : List (Nat × Nat) :=
  if classPathMatches then
    match asset, st.callback with
    | some assetId, some cb => [(cb, assetId)]
    | _, _ => []
  else []

/-- Dispatching one asset-added event: the registry runs the monitor's
OnAssetAdded handler once per binding; the result lists every (callback, asset)
invocation in order. -/
def DispatchAssetAdded (st : MonitorState) (classPathMatches : Bool)
    (asset : Option Nat) : List (Nat × Nat) :=
  (List.replicate st.addedSubs (handlerInvocations st classPathMatches asset)).flatten

/-- Dispatching one asset-updated event (the OnAssetModified handler). -/
def DispatchAssetUpdated (st : MonitorState) (classPathMatches : Bool)
    (asset : Option Nat) : List (Nat × Nat) :=
  (List.replicate st.updatedSubs (handlerInvocations st classPathMatches asset)).flatten

/-!
Specification-side definitions: order-preserving first-occurrence
de-duplication, the traversal order of dependency candidates, the qualifying
entry-node pins of a function graph, the downstream references of a node, and
the closed node-kind taxonomy of the spec.
-/

/-- First-occurrence de-duplication: keep each element's first occurrence, in
order. -/
def dedupFirstOccurrence {α : Type} [DecidableEq α] : List α → List α
  | [] => []
  | a :: l => a :: dedupFirstOccurrence (l.filter (fun b => b ≠ a))
termination_by l => l.length
decreasing_by
  simp only [List.length_cons]
  exact Nat.lt_succ_of_le (List.length_filter_le _ _)

/-- The default-object paths of the object-category pins in a pin list, in pin
order. -/
def pinDepCandidates (pins : List (Option Pin)) : List String :=
  (pins.filterMap id).flatMap (fun p =>
    if p.pinType.pinCategory = PC_Object then
      match p.defaultObject with
      | some objectPath => [objectPath]
      | none => []
    else [])

/-- The dependency path candidates contributed by one node, in the order the
extractor checks them: the called function's owning class path first, then the
default-object paths of the node's object-category pins. -/
def nodeDependencyCandidates (n : Node) : List String :=
  (match n.cls with
   | .callFunction (some classPath) => [classPath]
   | _ => [])
  ++ pinDepCandidates n.pins

/-- All dependency path candidates of a blueprint, in traversal order:
ubergraph pages in order, non-null nodes within each graph in order. -/
def DependencyCandidates (bp : Blueprint) : List String :=
  (bp.ubergraphPages.filterMap id).flatMap (fun g =>
    (g.nodes.filterMap id).flatMap nodeDependencyCandidates)

/-- The non-null nodes of a graph that cast to UK2Node_FunctionEntry, in node
order. -/
def entryNodes (g : Graph) : List Node :=
  (g.nodes.filterMap id).filter (fun n => isFunctionEntryNode n.cls)

/-- The non-null, output-direction, non-exec pins of a node, in pin order. -/
def qualifyingParamPins (n : Node) : List Pin :=
  (n.pins.filterMap id).filter
    (fun p => p.direction = Direction.output ∧ p.pinType.pinCategory ≠ PC_Exec)

/-- The node references reached by following a node's output-direction wires,
in traversal order (output pins in pin order, wires within a pin in order),
before de-duplication. -/
def OutRefs (n : Node) : List NodeRef :=
  ((n.pins.filterMap id).filter (fun p => p.direction = Direction.output)).flatMap
    (fun p => p.linkedTo.filterMap id)

/-- The closed node-kind taxonomy of the specification. -/
inductive NodeKindTag where
  | event
  | functionEntry
  | callExternalFunction
  | variableRead
  | variableWrite
  | otherKind (typeName : String)
deriving DecidableEq, Repr

/-- Modelled from the spec: the total classification of a node kind into the
closed taxonomy, with the fallback arm carrying the concrete type name. -/
def classifyNodeKind : NodeKindCase → NodeKindTag
  | .event => .event
  | .functionEntry => .functionEntry
  | .callFunction _ => .callExternalFunction
  | .variableGet => .variableRead
  | .variableSet => .variableWrite
  | .other className => .otherKind className

/-- The type string the exporter emits for each taxonomy tag. -/
def tagTypeString : NodeKindTag → String
  | .event => "Event"
  | .functionEntry => "FunctionEntry"
  | .callExternalFunction => "CallFunction"
  | .variableRead => "VariableGet"
  | .variableWrite => "VariableSet"
  | .otherKind typeName => typeName

/-- First-occurrence fold on a single seen-list, the dependency append guard
restricted to one component. -/
def addDep1 (seen : List String) (path : String) : List String :=
  if path.isEmpty = false ∧ path ∉ seen then seen ++ [path] else seen

/-!
Concrete fixtures used by counterexamples and witnesses.
-/

/-- A call-function node with no pins, referencing `path`. -/
def callRefNode (nm path : String) : Node :=
  { name := nm, cls := .callFunction (some path), title := nm, isK2 := true,
    menuCategory := "", posX := 0, posY := 0, pins := [] }

/-- A graph whose nodes reference the paths A, B, A, C in that encounter
order. -/
def abacGraph : Graph :=
  { name := "EventGraph",
    nodes := [some (callRefNode "n1" "A"), some (callRefNode "n2" "B"),
              some (callRefNode "n3" "A"), some (callRefNode "n4" "C")] }

/-- A blueprint with one ubergraph page referencing A, B, A, C. -/
def abacBlueprint : Blueprint :=
  { name := "Abac", pathName := "/Game/Abac", parentClassName := none,
    generatedClassName := none, ubergraphPages := [some abacGraph],
    functionGraphs := [], newVariables := [], simpleConstructionScript := none }

/-- A node that does not cast to UK2Node: its category string is empty. -/
def plainNode : Node :=
  { name := "N0", cls := .other "EdGraphNode_Comment", title := "Comment",
    isK2 := false, menuCategory := "", posX := 0, posY := 0, pins := [] }

/-- A pin with an empty default literal. -/
def pinNoDefault : Pin :=
  { name := "Value", displayName := "Value", direction := .input,
    pinType := { pinCategory := "int", pinSubCategoryObject := none, isArray := false },
    defaultValue := "", defaultObject := none, linkedTo := [] }

/-- A variable declaration with an empty default literal. -/
def varNoDefault : VariableDescription :=
  { varName := "Health", varType := { pinCategory := "float", pinSubCategoryObject := none, isArray := false },
    category := "Default", propertyFlags := 0, defaultValue := "" }

/-- A node N1 with a single output pin wired to input pins on N2 and N3. -/
def fanOutNode : Node :=
  { name := "N1", cls := .event, title := "N1", isK2 := true, menuCategory := "",
    posX := 0, posY := 0,
    pins := [some { name := "then", displayName := "then", direction := .output,
                    pinType := { pinCategory := "exec", pinSubCategoryObject := none, isArray := false },
                    defaultValue := "", defaultObject := none,
                    linkedTo := [some { refId := 2, name := "N2" },
                                 some { refId := 3, name := "N3" }] }] }

/-- A node of an unrecognized concrete kind. -/
def otherNode : Node :=
  { name := "N9", cls := .other "AnimGraphNode_Root", title := "Root",
    isK2 := false, menuCategory := "", posX := 0, posY := 0, pins := [] }

/-- A function-entry node with an exec output, two data outputs and a data
input. -/
def entryNodeFixture : Node :=
  { name := "Entry", cls := .functionEntry, title := "Entry", isK2 := true,
    menuCategory := "", posX := 0, posY := 0,
    pins := [some { name := "then", displayName := "then", direction := .output,
                    pinType := { pinCategory := "exec", pinSubCategoryObject := none, isArray := false },
                    defaultValue := "", defaultObject := none, linkedTo := [] },
             some { name := "Amount", displayName := "Amount", direction := .output,
                    pinType := { pinCategory := "int", pinSubCategoryObject := none, isArray := false },
                    defaultValue := "", defaultObject := none, linkedTo := [] },
             some { name := "Target", displayName := "Target", direction := .output,
                    pinType := { pinCategory := "object", pinSubCategoryObject := some "Actor", isArray := false },
                    defaultValue := "", defaultObject := none, linkedTo := [] },
             some { name := "In", displayName := "In", direction := .input,
                    pinType := { pinCategory := "int", pinSubCategoryObject := none, isArray := false },
                    defaultValue := "", defaultObject := none, linkedTo := [] }] }

/-- A function graph with exactly one function-entry node and one other
node. -/
def entryGraphFixture : Graph :=
  { name := "TakeDamage",
    nodes := [none, some entryNodeFixture, some (callRefNode "call" "/Script/Engine.KismetSystemLibrary")] }

/-- A blueprint with one function graph. -/
def funcBlueprintFixture : Blueprint :=
  { name := "Door", pathName := "/Game/Door", parentClassName := some "Actor",
    generatedClassName := some "Door_C", ubergraphPages := [],
    functionGraphs := [some entryGraphFixture], newVariables := [],
    simpleConstructionScript := none }

/-- A function graph without any function-entry node. -/
def noEntryGraphFixture : Graph :=
  { name := "Orphan", nodes := [some (callRefNode "call" "/Script/Engine.GameplayStatics"), none] }

/-!
Helper lemmas.
-/

section DedupLemmas

variable {α : Type} [DecidableEq α] {β : Type} [DecidableEq β]

lemma dfo_nil : dedupFirstOccurrence ([] : List α) = [] := by
  simp [dedupFirstOccurrence]

lemma dfo_cons (a : α) (l : List α) :
    dedupFirstOccurrence (a :: l)
      = a :: dedupFirstOccurrence (l.filter (fun b => b ≠ a)) := by
  simp [dedupFirstOccurrence]

lemma dfo_mem_fuel :
    ∀ (fuel : Nat) (l : List α), l.length ≤ fuel →
      ∀ x, (x ∈ dedupFirstOccurrence l ↔ x ∈ l) := by
  intro fuel
  induction fuel with
  | zero =>
    intro l hl x
    have hnil : l = [] := List.length_eq_zero.mp (Nat.le_zero.mp hl)
    subst hnil
    simp [dfo_nil]
  | succ n ih =>
    intro l hl x
    cases l with
    | nil => simp [dfo_nil]
    | cons a t =>
      have ht : t.length ≤ n := by
        have := hl
        simp only [List.length_cons] at this
        omega
      have hlen : (t.filter (fun b => b ≠ a)).length ≤ n :=
        le_trans (List.length_filter_le _ _) ht
      rw [dfo_cons]
      simp only [List.mem_cons]
      by_cases hx : x = a
      · simp [hx]
      · simp only [hx, false_or]
        rw [ih _ hlen x]
        simp [List.mem_filter, hx]

lemma dfo_mem (l : List α) (x : α) :
    x ∈ dedupFirstOccurrence l ↔ x ∈ l :=
  dfo_mem_fuel l.length l (le_refl _) x

lemma dfo_nodup_fuel :
    ∀ (fuel : Nat) (l : List α), l.length ≤ fuel →
      (dedupFirstOccurrence l).Nodup := by
  intro fuel
  induction fuel with
  | zero =>
    intro l hl
    have hnil : l = [] := List.length_eq_zero.mp (Nat.le_zero.mp hl)
    subst hnil
    simp [dfo_nil]
  | succ n ih =>
    intro l hl
    cases l with
    | nil => simp [dfo_nil]
    | cons a t =>
      have ht : t.length ≤ n := by
        simp only [List.length_cons] at hl
        omega
      have hlen : (t.filter (fun b => b ≠ a)).length ≤ n :=
        le_trans (List.length_filter_le _ _) ht
      rw [dfo_cons, List.nodup_cons]
      refine ⟨?_, ih _ hlen⟩
      intro hmem
      have := (dfo_mem _ a).mp hmem
      simp [List.mem_filter] at this

lemma dfo_nodup (l : List α) : (dedupFirstOccurrence l).Nodup :=
  dfo_nodup_fuel l.length l (le_refl _)

lemma dfo_map_fuel (f : α → β) :
    ∀ (fuel : Nat) (l : List α), l.length ≤ fuel →
      (∀ x ∈ l, ∀ y ∈ l, f x = f y → x = y) →
      dedupFirstOccurrence (l.map f) = (dedupFirstOccurrence l).map f := by
  intro fuel
  induction fuel with
  | zero =>
    intro l hl _
    have hnil : l = [] := List.length_eq_zero.mp (Nat.le_zero.mp hl)
    subst hnil
    simp [dfo_nil]
  | succ n ih =>
    intro l hl hinj
    cases l with
    | nil => simp [dfo_nil]
    | cons a t =>
      have ht : t.length ≤ n := by
        simp only [List.length_cons] at hl
        omega
      rw [List.map_cons, dfo_cons, dfo_cons, List.map_cons]
      congr 1
      have hfilter : (t.map f).filter (fun b => b ≠ f a)
          = (t.filter (fun b => b ≠ a)).map f := by
        rw [List.filter_map]
        congr 1
        apply List.filter_congr
        intro x hx
        have hiff : (f x ≠ f a) ↔ (x ≠ a) := by
          constructor
          · intro hne heq
            exact hne (heq ▸ rfl)
          · intro hne heq
            exact hne (hinj x (List.mem_cons_of_mem _ hx) a (List.mem_cons_self _ _) heq)
        show decide (f x ≠ f a) = decide (x ≠ a)
        exact decide_eq_decide.mpr hiff
      rw [hfilter]
      apply ih _ (le_trans (List.length_filter_le _ _) ht)
      intro x hx y hy
      exact hinj x (List.mem_cons_of_mem _ (List.mem_filter.mp hx).1)
        y (List.mem_cons_of_mem _ (List.mem_filter.mp hy).1)

lemma dfo_map (f : α → β) (l : List α)
    (hinj : ∀ x ∈ l, ∀ y ∈ l, f x = f y → x = y) :
    dedupFirstOccurrence (l.map f) = (dedupFirstOccurrence l).map f :=
  dfo_map_fuel f l.length l (le_refl _) hinj

lemma foldl_addUnique_eq :
    ∀ (l acc : List α),
      l.foldl addUnique acc
        = acc ++ dedupFirstOccurrence (l.filter (fun x => x ∉ acc)) := by
  intro l
  induction l with
  | nil => intro acc; simp [dfo_nil]
  | cons a t ih =>
    intro acc
    by_cases ha : a ∈ acc
    · rw [List.foldl_cons]
      have hstep : addUnique acc a = acc := by simp [addUnique, ha]
      rw [hstep, ih acc]
      congr 2
      rw [List.filter_cons]
      simp [ha]
    · rw [List.foldl_cons]
      have hstep : addUnique acc a = acc ++ [a] := by simp [addUnique, ha]
      rw [hstep, ih (acc ++ [a])]
      have hcond : decide (a ∉ acc) = true := by simpa using ha
      rw [List.filter_cons, if_pos hcond, dfo_cons, List.append_assoc]
      have hff : (t.filter (fun x => x ∉ acc)).filter (fun b => b ≠ a)
          = t.filter (fun x => x ∉ acc ++ [a]) := by
        rw [List.filter_filter]
        apply List.filter_congr
        intro x _
        have hiff : (x ≠ a ∧ x ∉ acc) ↔ (x ∉ acc ++ [a]) := by
          simp [List.mem_append, not_or, and_comm]
        calc (decide (x ≠ a) && decide (x ∉ acc))
            = decide (x ≠ a ∧ x ∉ acc) := (Bool.decide_and _ _).symm
          _ = decide (x ∉ acc ++ [a]) := decide_eq_decide.mpr hiff
      rw [hff]
      rfl

end DedupLemmas

section FoldLemmas

lemma pinsFold_eq :
    ∀ (l : List (Option Pin)) (acc : List JValue),
      l.foldl appendPinRecord acc = acc ++ (l.filterMap id).map SerializePin := by
  intro l
  induction l with
  | nil => intro acc; simp
  | cons x t ih =>
    intro acc
    cases x with
    | none => simp [appendPinRecord, ih]
    | some p => simp [appendPinRecord, ih]

lemma PinsArray_eq (n : Node) :
    PinsArray n = (n.pins.filterMap id).map SerializePin := by
  have := pinsFold_eq n.pins []
  simpa [PinsArray] using this

lemma nodesFold_eq :
    ∀ (l : List (Option Node)) (acc : List JValue),
      l.foldl appendNodeRecord acc = acc ++ (l.filterMap id).map SerializeNode := by
  intro l
  induction l with
  | nil => intro acc; simp
  | cons x t ih =>
    intro acc
    cases x with
    | none => simp [appendNodeRecord, ih]
    | some n => simp [appendNodeRecord, ih]

lemma NodesArray_eq (g : Graph) :
    NodesArray g = (g.nodes.filterMap id).map SerializeNode := by
  have := nodesFold_eq g.nodes []
  simpa [NodesArray] using this

lemma graphsFold_eq :
    ∀ (l : List (Option Graph)) (acc : List JValue),
      l.foldl appendGraphRecord acc = acc ++ (l.filterMap id).map SerializeGraph := by
  intro l
  induction l with
  | nil => intro acc; simp
  | cons x t ih =>
    intro acc
    cases x with
    | none => simp [appendGraphRecord, ih]
    | some g => simp [appendGraphRecord, ih]

lemma GraphsArray_eq (bp : Blueprint) :
    GraphsArray bp
      = ((bp.ubergraphPages ++ bp.functionGraphs).filterMap id).map SerializeGraph := by
  unfold GraphsArray
  rw [graphsFold_eq, graphsFold_eq, List.filterMap_append, List.map_append]
  simp

lemma functionsFold_eq :
    ∀ (l : List (Option Graph)) (acc : List JValue),
      l.foldl appendFunctionRecord acc = acc ++ (l.filterMap id).map SerializeFunction := by
  intro l
  induction l with
  | nil => intro acc; simp
  | cons x t ih =>
    intro acc
    cases x with
    | none => simp [appendFunctionRecord, ih]
    | some g => simp [appendFunctionRecord, ih]

lemma SerializeFunctions_eq (bp : Blueprint) :
    SerializeFunctions bp = (bp.functionGraphs.filterMap id).map SerializeFunction := by
  have := functionsFold_eq bp.functionGraphs []
  simpa [SerializeFunctions] using this

lemma connectedInner_eq :
    ∀ (l : List (Option NodeRef)) (acc : List NodeRef),
      l.foldl connectedStep acc = (l.filterMap id).foldl addUnique acc := by
  intro l
  induction l with
  | nil => intro acc; simp
  | cons x t ih =>
    intro acc
    cases x with
    | none => simp [connectedStep, ih]
    | some r => simp [connectedStep, ih]

lemma connectedOuter_eq :
    ∀ (pins : List (Option Pin)) (acc : List NodeRef),
      pins.foldl connectedPinStep acc
        = (((pins.filterMap id).filter (fun p => p.direction = Direction.output)).flatMap
            (fun p => p.linkedTo.filterMap id)).foldl addUnique acc := by
  intro pins
  induction pins with
  | nil => intro acc; simp
  | cons x t ih =>
    intro acc
    cases x with
    | none => simp [connectedPinStep, ih]
    | some p =>
      by_cases hd : p.direction = Direction.output
      · rw [List.foldl_cons]
        have hstep : connectedPinStep acc (some p) = p.linkedTo.foldl connectedStep acc := by
          simp [connectedPinStep, hd]
        rw [hstep, connectedInner_eq, ih]
        simp [hd, List.foldl_append]
      · rw [List.foldl_cons]
        have hstep : connectedPinStep acc (some p) = acc := by
          simp [connectedPinStep, hd]
        rw [hstep, ih]
        simp [hd]

lemma GetConnectedNodes_eq (n : Node) :
    GetConnectedNodes n = dedupFirstOccurrence (OutRefs n) := by
  unfold GetConnectedNodes OutRefs
  rw [connectedOuter_eq, foldl_addUnique_eq]
  simp

lemma paramsInner_eq :
    ∀ (l : List (Option Pin)) (acc : List JValue),
      l.foldl appendParamRecord acc
        = acc ++ ((l.filterMap id).filter
            (fun p => p.direction = Direction.output ∧ p.pinType.pinCategory ≠ PC_Exec)).map
            ParamRecord := by
  intro l
  induction l with
  | nil => intro acc; simp
  | cons x t ih =>
    intro acc
    cases x with
    | none => simp [appendParamRecord, ih]
    | some p =>
      by_cases hq : p.direction = Direction.output ∧ p.pinType.pinCategory ≠ PC_Exec
      · rw [List.foldl_cons]
        have hstep : appendParamRecord acc (some p) = acc ++ [ParamRecord p] := by
          simp [appendParamRecord, hq]
        rw [hstep, ih]
        simp [hq]
      · rw [List.foldl_cons]
        have hstep : appendParamRecord acc (some p) = acc := by
          simp [appendParamRecord, hq]
        rw [hstep, ih]
        simp [hq]

lemma paramsOuter_eq :
    ∀ (nodes : List (Option Node)) (acc : List JValue),
      nodes.foldl paramNodeStep acc
        = acc ++ (((nodes.filterMap id).filter (fun n => isFunctionEntryNode n.cls)).map
            (fun e => (qualifyingParamPins e).map ParamRecord)).flatten := by
  intro nodes
  induction nodes with
  | nil => intro acc; simp
  | cons x t ih =>
    intro acc
    cases x with
    | none => simp [paramNodeStep, ih]
    | some n =>
      by_cases he : isFunctionEntryNode n.cls
      · rw [List.foldl_cons]
        have hstep : paramNodeStep acc (some n) = n.pins.foldl appendParamRecord acc := by
          simp [paramNodeStep, he]
        rw [hstep, paramsInner_eq, ih]
        simp [he, qualifyingParamPins]
      · rw [List.foldl_cons]
        have hstep : paramNodeStep acc (some n) = acc := by
          simp [paramNodeStep, he]
        rw [hstep, ih]
        simp [he]

lemma FunctionEntryParams_eq (g : Graph) :
    FunctionEntryParams g
      = ((entryNodes g).map (fun e => (qualifyingParamPins e).map ParamRecord)).flatten := by
  have := paramsOuter_eq g.nodes []
  simpa [FunctionEntryParams, entryNodes] using this

lemma addDependency_pair (l : List String) (p : String) :
    addDependency (l, l) p = (addDep1 l p, addDep1 l p) := by
  unfold addDependency addDep1
  by_cases h : p.isEmpty = false ∧ p ∉ l <;> simp [h]

lemma depsFold_pair :
    ∀ (cands : List String) (l : List String),
      cands.foldl addDependency (l, l)
        = (cands.foldl addDep1 l, cands.foldl addDep1 l) := by
  intro cands
  induction cands with
  | nil => intro l; rfl
  | cons c t ih =>
    intro l
    rw [List.foldl_cons, addDependency_pair, List.foldl_cons]
    exact ih _

lemma depPinFold_eq :
    ∀ (pins : List (Option Pin)) (st : List String × List String),
      pins.foldl depPinStep st = (pinDepCandidates pins).foldl addDependency st := by
  intro pins
  induction pins with
  | nil => intro st; simp [pinDepCandidates]
  | cons x t ih =>
    intro st
    cases x with
    | none => simp [depPinStep, pinDepCandidates, ih]
    | some p =>
      by_cases hc : p.pinType.pinCategory = PC_Object
      · cases hdo : p.defaultObject with
        | none =>
          rw [List.foldl_cons]
          have hstep : depPinStep st (some p) = st := by
            simp [depPinStep, hc, hdo]
          rw [hstep, ih]
          simp [pinDepCandidates, hc, hdo]
        | some objectPath =>
          rw [List.foldl_cons]
          have hstep : depPinStep st (some p) = addDependency st objectPath := by
            simp [depPinStep, hc, hdo]
          rw [hstep, ih]
          simp [pinDepCandidates, hc, hdo]
      · rw [List.foldl_cons]
        have hstep : depPinStep st (some p) = st := by
          simp [depPinStep, hc]
        rw [hstep, ih]
        simp [pinDepCandidates, hc]

lemma depNode_eq (st : List String × List String) (n : Node) :
    depNodeStep st (some n) = (nodeDependencyCandidates n).foldl addDependency st := by
  unfold depNodeStep nodeDependencyCandidates
  rw [List.foldl_append]
  cases hcls : n.cls with
  | callFunction mp =>
    cases mp with
    | none => simp [hcls, depPinFold_eq]
    | some classPath => simp [hcls, depPinFold_eq]
  | event => simp [hcls, depPinFold_eq]
  | functionEntry => simp [hcls, depPinFold_eq]
  | variableGet => simp [hcls, depPinFold_eq]
  | variableSet => simp [hcls, depPinFold_eq]
  | other className => simp [hcls, depPinFold_eq]

lemma depNodesFold_eq :
    ∀ (nodes : List (Option Node)) (st : List String × List String),
      nodes.foldl depNodeStep st
        = ((nodes.filterMap id).flatMap nodeDependencyCandidates).foldl addDependency st := by
  intro nodes
  induction nodes with
  | nil => intro st; simp
  | cons x t ih =>
    intro st
    cases x with
    | none =>
      have hstep : depNodeStep st none = st := rfl
      rw [List.foldl_cons, hstep, ih]
      simp
    | some n =>
      rw [List.foldl_cons, depNode_eq, ih]
      simp [List.foldl_append]

lemma depGraphsFold_eq :
    ∀ (graphs : List (Option Graph)) (st : List String × List String),
      graphs.foldl depGraphStep st
        = ((graphs.filterMap id).flatMap (fun g =>
            (g.nodes.filterMap id).flatMap nodeDependencyCandidates)).foldl addDependency st := by
  intro graphs
  induction graphs with
  | nil => intro st; simp
  | cons x t ih =>
    intro st
    cases x with
    | none =>
      have hstep : depGraphStep st none = st := rfl
      rw [List.foldl_cons, hstep, ih]
      simp
    | some g =>
      have hstep : depGraphStep st (some g) = g.nodes.foldl depNodeStep st := rfl
      rw [List.foldl_cons, hstep, depNodesFold_eq, ih]
      simp [List.foldl_append]

lemma addDep1Fold_filter_eq :
    ∀ (l seen : List String),
      l.foldl addDep1 seen
        = (l.filter (fun p => p.isEmpty = false)).foldl addUnique seen := by
  intro l
  induction l with
  | nil => intro seen; simp
  | cons a t ih =>
    intro seen
    by_cases ha : a.isEmpty = false
    · rw [List.foldl_cons]
      have hstep : addDep1 seen a = addUnique seen a := by
        unfold addDep1 addUnique
        by_cases hm : a ∈ seen <;> simp [ha, hm]
      rw [hstep, ih]
      simp [ha]
    · rw [List.foldl_cons]
      have hstep : addDep1 seen a = seen := by
        simp [addDep1, ha]
      rw [hstep, ih]
      simp [ha]

lemma ExtractDependencies_eq (bp : Blueprint) :
    ExtractDependencies bp
      = dedupFirstOccurrence
          ((DependencyCandidates bp).filter (fun p => p.isEmpty = false)) := by
  unfold ExtractDependencies DependencyCandidates
  rw [depGraphsFold_eq, depsFold_pair, addDep1Fold_filter_eq, foldl_addUnique_eq]
  simp

end FoldLemmas

section StringLemmas

lemma string_append_left_ne (a b : String) (h : 0 < b.length) : a ++ b ≠ "" := by
  intro he
  have hlen := congrArg String.length he
  rw [String.length_append] at hlen
  have hz : String.length "" = 0 := rfl
  omega

end StringLemmas

/-!
Claim theorems.
-/

/-- C1: ExtractDependencies returns each distinct non-empty referenced path
exactly once, in order of first occurrence over the traversal (graphs in given
order, nodes in given order, the call target's class path before the node's
object-pin default objects); a graph referencing paths A, B, A, C in that
encounter order yields exactly [A, B, C]. -/
theorem extractDependencies_first_occurrence :
    (∀ bp : Blueprint,
       ExtractDependencies bp
         = dedupFirstOccurrence
             ((DependencyCandidates bp).filter (fun p => p.isEmpty = false)) ∧
       (ExtractDependencies bp).Nodup ∧
       (∀ p, p ∈ ExtractDependencies bp ↔
          p ∈ DependencyCandidates bp ∧ p.isEmpty = false)) ∧
    ExtractDependencies abacBlueprint = ["A", "B", "C"] := by
  constructor
  · intro bp
    refine ⟨ExtractDependencies_eq bp, ?_, ?_⟩
    · rw [ExtractDependencies_eq]
      exact dfo_nodup _
    · intro p
      rw [ExtractDependencies_eq, dfo_mem, List.mem_filter]
      simp
  · decide

/-- C2 (the code violates the claim): after two StartMonitoring calls the
monitor holds two registry bindings per event class, and one matching
asset-added (or asset-updated) event invokes the stored callback twice, not
once; StopMonitoring on an Idle monitor is a no-op as claimed. -/
theorem monitor_double_start_double_invocation :
    StartMonitoring 7 (StartMonitoring 5 idleMonitor)
      = { callback := some 7, addedSubs := 2, removedSubs := 2, updatedSubs := 2 } ∧
    DispatchAssetAdded (StartMonitoring 7 (StartMonitoring 5 idleMonitor)) true (some 42)
      = [(7, 42), (7, 42)] ∧
    DispatchAssetUpdated (StartMonitoring 7 (StartMonitoring 5 idleMonitor)) true (some 42)
      = [(7, 42), (7, 42)] ∧
    StopMonitoring idleMonitor = idleMonitor := by
  refine ⟨rfl, rfl, rfl, rfl⟩

/-- C3 counterexample: a node whose category string is empty still gets a
category field (with the empty string as its value), so the empty category is
not omitted from the output. -/
theorem node_empty_category_still_emitted :
    GetNodeCategory plainNode = "" ∧
    getField (SerializeNode plainNode) "category" = some (JValue.str "") ∧
    getField (SerializeNode plainNode) "category" ≠ none := by
  have h2 : getField (SerializeNode plainNode) "category" = some (JValue.str "") := rfl
  refine ⟨rfl, h2, ?_⟩
  simp [h2]

/-- C3 amended: default_value is omitted (no key at all) from pin and variable
records whose default literal is empty, but the category field is always
emitted, as an empty string when absent. -/
theorem default_value_omitted_category_always_emitted (pin : Pin)
    (v : VariableDescription) (n : Node)
    (hpin : pin.defaultValue = "") (hv : v.defaultValue = "") :
    getField (SerializePin pin) "default_value" = none ∧
    getField (SerializeVariable v) "default_value" = none ∧
    getField (SerializeNode n) "category" = some (JValue.str (GetNodeCategory n)) := by
  have hpe : pin.defaultValue.isEmpty = true := by rw [hpin]; rfl
  have hve : v.defaultValue.isEmpty = true := by rw [hv]; rfl
  refine ⟨?_, ?_, rfl⟩
  · unfold getField SerializePin
    rw [hpe]
    rfl
  · unfold getField SerializeVariable
    rw [hve]
    rfl

/-- C3 witness: a concrete pin and variable with empty default literals have no
default_value key, and a concrete node with empty category still carries the
category key. -/
theorem default_value_omitted_witness :
    pinNoDefault.defaultValue = "" ∧ varNoDefault.defaultValue = "" ∧
    (getField (SerializePin pinNoDefault) "default_value" = none ∧
     getField (SerializeVariable varNoDefault) "default_value" = none ∧
     getField (SerializeNode plainNode) "category"
       = some (JValue.str (GetNodeCategory plainNode))) :=
  ⟨rfl, rfl,
   default_value_omitted_category_always_emitted pinNoDefault varNoDefault plainNode rfl rfl⟩

/-- C4: a node's connections field lists the identities of the nodes reached by
its output-direction wires, de-duplicated in first-seen order (given that node
identities are unique among the reached nodes, as the graph invariant
guarantees). -/
theorem connections_dedup_first_seen (n : Node)
    (hinj : ∀ r1 ∈ OutRefs n, ∀ r2 ∈ OutRefs n, r1.name = r2.name → r1 = r2) :
    GetConnectedNodes n = dedupFirstOccurrence (OutRefs n) ∧
    getField (SerializeNode n) "connections"
      = some (JValue.arr
          ((dedupFirstOccurrence ((OutRefs n).map NodeRef.name)).map JValue.str)) := by
  refine ⟨GetConnectedNodes_eq n, ?_⟩
  have hconn : getField (SerializeNode n) "connections"
      = some (JValue.arr ((GetConnectedNodes n).map (fun r => JValue.str r.name))) := rfl
  rw [hconn, GetConnectedNodes_eq n, dfo_map NodeRef.name (OutRefs n) hinj, List.map_map]
  rfl

/-- C4 witness: N1 with one output pin wired to N2 and N3 keeps both wires in
the port model and serializes connections as exactly [N2, N3]. -/
theorem connections_dedup_first_seen_witness :
    (∀ r1 ∈ OutRefs fanOutNode, ∀ r2 ∈ OutRefs fanOutNode, r1.name = r2.name → r1 = r2) ∧
    (GetConnectedNodes fanOutNode = dedupFirstOccurrence (OutRefs fanOutNode) ∧
     getField (SerializeNode fanOutNode) "connections"
       = some (JValue.arr
           ((dedupFirstOccurrence ((OutRefs fanOutNode).map NodeRef.name)).map JValue.str))) ∧
    OutRefs fanOutNode = [{ refId := 2, name := "N2" }, { refId := 3, name := "N3" }] ∧
    GetConnectedNodes fanOutNode
      = [{ refId := 2, name := "N2" }, { refId := 3, name := "N3" }] ∧
    getField (SerializeNode fanOutNode) "connections"
      = some (JValue.arr [JValue.str "N2", JValue.str "N3"]) :=
  ⟨by decide, connections_dedup_first_seen fanOutNode (by decide),
   by decide, by decide, rfl⟩

/-- C5: node kind classification is total over the closed taxonomy, realized in
the code by the fixed-priority cast chain of NodeTypeToString; every node gets
exactly one tag, and the fallback tag carries the node's concrete class name as
the emitted type string. -/
theorem nodeTypeToString_total_classification :
    ∀ n : Node,
      NodeTypeToString (some n) = tagTypeString (classifyNodeKind n.cls) ∧
      (∃! t : NodeKindTag, classifyNodeKind n.cls = t) := by
  intro n
  constructor
  · cases hc : n.cls with
    | event =>
      simp [NodeTypeToString, hc, isEventNode, classifyNodeKind, tagTypeString]
    | functionEntry =>
      simp [NodeTypeToString, hc, isEventNode, isFunctionEntryNode,
            classifyNodeKind, tagTypeString]
    | callFunction mp =>
      simp [NodeTypeToString, hc, isEventNode, isFunctionEntryNode,
            isCallFunctionNode, classifyNodeKind, tagTypeString]
    | variableGet =>
      simp [NodeTypeToString, hc, isEventNode, isFunctionEntryNode,
            isCallFunctionNode, isVariableGetNode, classifyNodeKind, tagTypeString]
    | variableSet =>
      simp [NodeTypeToString, hc, isEventNode, isFunctionEntryNode,
            isCallFunctionNode, isVariableGetNode, isVariableSetNode,
            classifyNodeKind, tagTypeString]
    | other className =>
      simp [NodeTypeToString, hc, isEventNode, isFunctionEntryNode,
            isCallFunctionNode, isVariableGetNode, isVariableSetNode,
            classifyNodeKind, tagTypeString, nodeClassName]
  · exact ⟨classifyNodeKind n.cls, rfl, fun y hy => hy.symm⟩

/-- C5 witness: an unrecognized concrete node kind is classified as the
fallback tag and its emitted type string is its concrete class name. -/
theorem nodeTypeToString_total_classification_witness :
    NodeTypeToString (some otherNode) = tagTypeString (classifyNodeKind otherNode.cls) ∧
    (∃! t : NodeKindTag, classifyNodeKind otherNode.cls = t) :=
  nodeTypeToString_total_classification otherNode

/-- C6 counterexample: the TypeDescriptor with empty base category, no
referenced type and the collection flag unset encodes to the empty string, so
not every TypeDescriptor encodes to a non-empty string. -/
theorem pinTypeToString_empty_counterexample :
    PinTypeToString { pinCategory := "", pinSubCategoryObject := none, isArray := false }
      = "" := rfl

/-- C6 amended: the encoder is total and produces Base, Base<Ref>, Array<Base>
or Array<Base<Ref>> by the two flags; the result is empty exactly when the base
category is empty, no referenced type is present and the collection flag is
unset (hence non-empty whenever the category is non-empty). -/
theorem pinTypeToString_format (td : TypeDescriptor) :
    (td.pinSubCategoryObject = none → td.isArray = false →
        PinTypeToString td = td.pinCategory) ∧
    (∀ s, td.pinSubCategoryObject = some s → td.isArray = false →
        PinTypeToString td = td.pinCategory ++ "<" ++ s ++ ">") ∧
    (td.pinSubCategoryObject = none → td.isArray = true →
        PinTypeToString td = "Array<" ++ td.pinCategory ++ ">") ∧
    (∀ s, td.pinSubCategoryObject = some s → td.isArray = true →
        PinTypeToString td = "Array<" ++ (td.pinCategory ++ "<" ++ s ++ ">") ++ ">") ∧
    (PinTypeToString td = "" ↔
        td.pinCategory = "" ∧ td.pinSubCategoryObject = none ∧ td.isArray = false) := by
  obtain ⟨cat, sub, arr⟩ := td
  cases sub with
  | none =>
    cases arr with
    | false => simp [PinTypeToString]
    | true =>
      have hne : "Array<" ++ cat ++ ">" ≠ "" :=
        string_append_left_ne _ _ (by decide)
      simp [PinTypeToString, hne]
  | some s =>
    cases arr with
    | false =>
      have hne : cat ++ "<" ++ s ++ ">" ≠ "" :=
        string_append_left_ne _ _ (by decide)
      simp [PinTypeToString, hne]
    | true =>
      have hne : "Array<" ++ (cat ++ "<" ++ s ++ ">") ++ ">" ≠ "" :=
        string_append_left_ne _ _ (by decide)
      simp [PinTypeToString, hne]

/-- C6 witness: a collection of a struct-referencing int type encodes to
Array<int<MyStruct>>. -/
theorem pinTypeToString_format_witness :
    PinTypeToString { pinCategory := "int", pinSubCategoryObject := some "MyStruct", isArray := true }
      = "Array<" ++ ("int" ++ "<" ++ "MyStruct" ++ ">") ++ ">" :=
  (pinTypeToString_format
    { pinCategory := "int", pinSubCategoryObject := some "MyStruct", isArray := true }).2.2.2.1
    "MyStruct" rfl rfl

/-- C7: a null blueprint makes data extraction return the empty-document
placeholder and makes export-to-file return false, with no attempt to
serialize and no exception crossing the boundary. -/
theorem null_blueprint_export_fails :
    ExtractBlueprintData none = "\x7b\x7d" ∧
    (∀ (saveStringToFile : String → String → Bool) (filePath : String),
        ExportBlueprintToFile saveStringToFile none filePath = false) :=
  ⟨rfl, fun _ _ => rfl⟩

/-- C8: each function graph's entry in the functions array carries the graph's
name, one name/type record per output-direction non-exec pin of the graph's
(unique) FunctionEntry node in pin order, and the embedded graph record. -/
theorem serializeFunctions_single_entry (bp : Blueprint) (g : Graph) (e : Node)
    (hentry : entryNodes g = [e]) :
    SerializeFunctions bp = (bp.functionGraphs.filterMap id).map SerializeFunction ∧
    SerializeFunction g
      = JValue.obj
          [("name", JValue.str g.name),
           ("parameters", JValue.arr ((qualifyingParamPins e).map ParamRecord)),
           ("graph", SerializeGraph g)] := by
  refine ⟨SerializeFunctions_eq bp, ?_⟩
  unfold SerializeFunction
  rw [FunctionEntryParams_eq, hentry]
  simp

/-- C8 witness: a concrete blueprint with one function graph holding exactly
one entry node. -/
theorem serializeFunctions_single_entry_witness :
    entryNodes entryGraphFixture = [entryNodeFixture] ∧
    (SerializeFunctions funcBlueprintFixture
        = (funcBlueprintFixture.functionGraphs.filterMap id).map SerializeFunction ∧
     SerializeFunction entryGraphFixture
        = JValue.obj
            [("name", JValue.str entryGraphFixture.name),
             ("parameters",
              JValue.arr ((qualifyingParamPins entryNodeFixture).map ParamRecord)),
             ("graph", SerializeGraph entryGraphFixture)]) :=
  ⟨by decide,
   serializeFunctions_single_entry funcBlueprintFixture entryGraphFixture entryNodeFixture
     (by decide)⟩

/-- C9: serialization is total over lists with null entries — the graphs,
nodes, pins and functions arrays each hold exactly one record per non-null
source element, in order. -/
theorem serialization_skips_null_entries :
    ∀ (bp : Blueprint) (g : Graph) (n : Node),
      GraphsArray bp
        = ((bp.ubergraphPages ++ bp.functionGraphs).filterMap id).map SerializeGraph ∧
      NodesArray g = (g.nodes.filterMap id).map SerializeNode ∧
      PinsArray n = (n.pins.filterMap id).map SerializePin ∧
      SerializeFunctions bp = (bp.functionGraphs.filterMap id).map SerializeFunction :=
  fun bp g n =>
    ⟨GraphsArray_eq bp, NodesArray_eq g, PinsArray_eq n, SerializeFunctions_eq bp⟩

/-- C10: the parameters list concatenates the qualifying pins of every
FunctionEntry node of the graph in node order, and a graph with no entry node
yields an empty parameters list. -/
theorem functionEntryParams_concat_all_entries :
    ∀ g : Graph,
      FunctionEntryParams g
        = ((entryNodes g).map (fun e => (qualifyingParamPins e).map ParamRecord)).flatten ∧
      (entryNodes g = [] → FunctionEntryParams g = []) := by
  intro g
  refine ⟨FunctionEntryParams_eq g, ?_⟩
  intro h
  rw [FunctionEntryParams_eq, h]
  rfl

/-- C10 witness: a function graph without any FunctionEntry node yields an
empty parameters list. -/
theorem functionEntryParams_concat_all_entries_witness :
    entryNodes noEntryGraphFixture = [] ∧ FunctionEntryParams noEntryGraphFixture = [] :=
  ⟨by decide, (functionEntryParams_concat_all_entries noEntryGraphFixture).2 (by decide)⟩

end BlueprintExporter
